import Mathlib

/-!
Shallow embedding of the student CRUD service in `src/server.js`
(Express + Mongoose). The Mongoose schema's string setters (`trim`,
`lowercase`), the email format validator, the `required` validators, the
unique index on `email`, and the five route handlers are modelled as
executable Lean functions over an explicit store state. Persistence is a
list of records together with an id counter and a logical clock that
stands for wall-clock timestamps (it advances on every write, so
`createdAt` values are strictly increasing across creates).
-/

namespace StudentSrv

/-! ### JS / Mongoose string normalization

`trim: true` and `lowercase: true` on a Mongoose string path apply
JavaScript `String.prototype.trim` and `.toLowerCase` as setters before
the value is validated and stored. We model them on ASCII data: `lowerChar`
maps the letters `A`-`Z` (code points 65-90) to `a`-`z` (97-122) and fixes
every other character; `isWs` recognizes the ASCII whitespace characters
that `trim` strips from both ends. -/

def isWs (c : Char) : Bool :=
  c.toNat = 32 || c.toNat = 9 || c.toNat = 10 || c.toNat = 13

def lowerChar (c : Char) : Char :=
  if 65 ≤ c.toNat ∧ c.toNat ≤ 90 then Char.ofNat (c.toNat + 32) else c

def trimList (l : List Char) : List Char :=
  ((l.dropWhile isWs).reverse.dropWhile isWs).reverse

def jsTrim (s : String) : String :=
  ⟨trimList s.data⟩

def jsLower (s : String) : String :=
  ⟨s.data.map lowerChar⟩

/-- Normalization applied by the schema to the `email` path: trim both
ends, then lowercase (`trim: true, lowercase: true`). -/
def normEmail (s : String) : String :=
  jsLower (jsTrim s)

/-! ### The email format validator

`studentSchema.email.validate` tests the value against the anchored
regular expression

  `^\w+([.-]?\w+)*@\w+([.-]?\w+)*(\.\w{2,3})+$`

We embed a small regular-expression language with Brzozowski-derivative
matching and write that exact pattern in it. An anchored JS regex with no
lookaround or backreferences accepts precisely the strings in the
language of the pattern, so language membership is the faithful model. -/

inductive RE where
  | emp : RE
  | eps : RE
  | cls (p : Char → Bool) : RE
  | alt (a b : RE) : RE
  | cat (a b : RE) : RE
  | star (a : RE) : RE

def RE.nullable : RE → Bool
  | .emp => false
  | .eps => true
  | .cls _ => false
  | .alt a b => a.nullable || b.nullable
  | .cat a b => a.nullable && b.nullable
  | .star _ => true

def RE.deriv : RE → Char → RE
  | .emp, _ => .emp
  | .eps, _ => .emp
  | .cls p, c => if p c then .eps else .emp
  | .alt a b, c => .alt (a.deriv c) (b.deriv c)
  | .cat a b, c =>
      if a.nullable then .alt (.cat (a.deriv c) b) (b.deriv c)
      else .cat (a.deriv c) b
  | .star a, c => .cat (a.deriv c) (.star a)

def RE.matchList (r : RE) (l : List Char) : Bool :=
  (l.foldl RE.deriv r).nullable

def RE.matches (r : RE) (s : String) : Bool :=
  r.matchList s.data

/-- Character class `\w`: ASCII word characters. -/
def wordChar (c : Char) : Bool :=
  (97 ≤ c.toNat && c.toNat ≤ 122) || (65 ≤ c.toNat && c.toNat ≤ 90) ||
    (48 ≤ c.toNat && c.toNat ≤ 57) || c.toNat = 95

/-- Character class `[.-]`. -/
def sepChar (c : Char) : Bool :=
  c = '.' || c = '-'

/-- The pattern `\w+`. -/
def wPlus : RE :=
  .cat (.cls wordChar) (.star (.cls wordChar))

/-- The pattern `([.-]?\w+)*`. -/
def sepSegs : RE :=
  .star (.cat (.alt .eps (.cls sepChar)) wPlus)

/-- The pattern `\.\w{2,3}`: a dot then two or three word characters. -/
def tldSeg : RE :=
  .cat (.cls (· = '.')) (.cat (.cls wordChar) (.cat (.cls wordChar) (.alt .eps (.cls wordChar))))

/-- The full anchored email pattern from `studentSchema.email.validate`. -/
def emailRE : RE :=
  .cat wPlus (.cat sepSegs (.cat (.cls (· = '@'))
    (.cat wPlus (.cat sepSegs (.cat tldSeg (.star tldSeg))))))

/-- The schema's email validator applied to a (setter-normalized) value. -/
def validEmail (s : String) : Bool :=
  emailRE.matches s

/-! ### Data model and store state -/

/-- One stored student document. `id` models Mongo's `_id`; `createdAt`
and `updatedAt` are the `timestamps: true` fields, drawn from the store's
logical clock. -/
structure Student where
  id : Nat
  name : String
  address : String
  city : String
  state : String
  email : String
  phone : String
  createdAt : Nat
  updatedAt : Nat
deriving Repr, DecidableEq

/-- The persistent state owned by the document store: the records, the
next fresh `_id`, and a logical clock used for timestamps. -/
structure DB where
  records : List Student
  nextId : Nat
  clock : Nat
deriving Repr, DecidableEq

def DB.empty : DB :=
  { records := [], nextId := 0, clock := 0 }

/-- The six user fields of a request body as destructured by the
handlers; a JSON body may omit any of them (`none` ~ `undefined`). -/
structure ReqBody where
  name : Option String
  address : Option String
  city : Option String
  state : Option String
  email : Option String
  phone : Option String
deriving Repr, DecidableEq

/-- JS truthiness of a destructured string field: `undefined` and the
empty string are falsy; every other string is truthy. -/
def truthy : Option String → Bool
  | none => false
  | some s => !(s == "")

/-- The handlers' required-fields guard
`if (!name || !address || !city || !state || !email || !phone)`. -/
def allPresent (b : ReqBody) : Bool :=
  truthy b.name && truthy b.address && truthy b.city && truthy b.state &&
    truthy b.email && truthy b.phone

/-- The six field values handed to the persistence layer (used only
after the truthiness guard has passed, so `getD` never fires on a field
the guard required). -/
structure Fields where
  name : String
  address : String
  city : String
  state : String
  email : String
  phone : String
deriving Repr, DecidableEq

def rawFields (b : ReqBody) : Fields :=
  { name := b.name.getD "", address := b.address.getD "",
    city := b.city.getD "", state := b.state.getD "",
    email := b.email.getD "", phone := b.phone.getD "" }

/-- Schema setters, applied by Mongoose before validation and storage:
every path has `trim: true`; `email` additionally has `lowercase: true`. -/
def applySetters (f : Fields) : Fields :=
  { name := jsTrim f.name, address := jsTrim f.address,
    city := jsTrim f.city, state := jsTrim f.state,
    email := normEmail f.email, phone := jsTrim f.phone }

/-- Schema validation of a document after setters: each of the six paths
is `required` (a string fails `required` exactly when it is empty), and
`email` must additionally satisfy the format validator. Returns the
Mongoose ValidationError message, or `none` when the document is valid. -/
def validateDoc (f : Fields) : Option String :=
  if f.name = "" then some "Student validation failed: name: Path name is required."
  else if f.address = "" then some "Student validation failed: address: Path address is required."
  else if f.city = "" then some "Student validation failed: city: Path city is required."
  else if f.state = "" then some "Student validation failed: state: Path state is required."
  else if f.email = "" then some "Student validation failed: email: Path email is required."
  else if !validEmail f.email then some "Student validation failed: email: Please enter a valid email address"
  else if f.phone = "" then some "Student validation failed: phone: Path phone is required."
  else none

/-- Failures the store can raise on a write: the unique-index violation
on `email` (Mongo error code 11000) or a schema ValidationError. -/
inductive WriteError where
  | duplicateKey : WriteError
  | invalid (msg : String) : WriteError
deriving Repr, DecidableEq

/-- Model of `new Student({...}).save()`: apply setters, run schema
validation, enforce the unique index on `email` against the stored
records, then insert with a fresh id and `createdAt = updatedAt = now`. -/
def saveStudent (db : DB) (raw : Fields) : Except WriteError (Student × DB) :=
  let f := applySetters raw
  match validateDoc f with
  | some msg => .error (.invalid msg)
  | none =>
    if db.records.any (fun r => r.email == f.email) then
      .error .duplicateKey
    else
      let s : Student :=
        { id := db.nextId, name := f.name, address := f.address,
          city := f.city, state := f.state, email := f.email,
          phone := f.phone, createdAt := db.clock, updatedAt := db.clock }
      .ok (s, { records := db.records ++ [s], nextId := db.nextId + 1,
                clock := db.clock + 1 })

/-- Model of `findByIdAndUpdate(id, fields, {new: true, runValidators:
true})`: setters and update validators run before the query executes, so
a ValidationError is raised even when the id is absent; then the matched
document (if any) is replaced on the six user fields with `updatedAt`
refreshed, subject to the unique index on `email`. Returns `ok none`
when no document has the given id. -/
def updateById (db : DB) (id : Nat) (raw : Fields) :
    Except WriteError (Option (Student × DB)) :=
  let f := applySetters raw
  match validateDoc f with
  | some msg => .error (.invalid msg)
  | none =>
    match db.records.find? (fun r => r.id == id) with
    | none => .ok none
    | some r =>
      if db.records.any (fun x => !(x.id == id) && x.email == f.email) then
        .error .duplicateKey
      else
        let s : Student :=
          { id := r.id, name := f.name, address := f.address,
            city := f.city, state := f.state, email := f.email,
            phone := f.phone, createdAt := r.createdAt,
            updatedAt := db.clock }
        .ok (some (s, { records := db.records.map
                          (fun x => if x.id == id then s else x),
                        nextId := db.nextId, clock := db.clock + 1 }))

/-! ### HTTP responses and route handlers -/

/-- A JSON response body: a single student, an array of students, a bare
`{message}` object, or a `{message, error}` object. -/
inductive Body where
  | student (s : Student) : Body
  | students (l : List Student) : Body
  | msg (message : String) : Body
  | msgErr (message : String) (error : String) : Body
deriving Repr, DecidableEq

structure Resp where
  status : Nat
  body : Body
deriving Repr, DecidableEq

/-- Descending insertion by `createdAt`, used to model
`Student.find().sort({createdAt: -1})`. -/
def insertDesc (s : Student) : List Student → List Student
  | [] => [s]
  | t :: ts => if t.createdAt ≤ s.createdAt then s :: t :: ts else t :: insertDesc s ts

def sortByCreatedDesc (l : List Student) : List Student :=
  l.foldr insertDesc []

/-- Handler of `GET /api/students`. -/
def listStudents (db : DB) : Resp :=
  { status := 200, body := .students (sortByCreatedDesc db.records) }

/-- Handler of `GET /api/students/:id`. -/
def getStudent (db : DB) (id : Nat) : Resp :=
  match db.records.find? (fun r => r.id == id) with
  | none => { status := 404, body := .msg "Student not found" }
  | some s => { status := 200, body := .student s }

/-- Handler of `POST /api/students`: required-fields guard, then the
`findOne({email})` pre-check (query setters normalize the filter value),
then `save()` with its catch mapping code 11000 to the duplicate message
and any other write failure to `Error creating student` plus detail. -/
def createStudent (db : DB) (b : ReqBody) : Resp × DB :=
  if !allPresent b then
    ({ status := 400, body := .msg "All fields are required" }, db)
  else
    let raw := rawFields b
    if db.records.any (fun r => r.email == normEmail raw.email) then
      ({ status := 400, body := .msg "Student with this email already exists" }, db)
    else
      match saveStudent db raw with
      | .ok (s, db') => ({ status := 201, body := .student s }, db')
      | .error .duplicateKey =>
          ({ status := 400, body := .msg "Student with this email already exists" }, db)
      | .error (.invalid m) =>
          ({ status := 400, body := .msgErr "Error creating student" m }, db)

/-- Handler of `PUT /api/students/:id`: required-fields guard, then the
`findOne({email, _id: {$ne: id}})` pre-check, then `findByIdAndUpdate`
with the same catch shape as create (`Error updating student`). -/
def updateStudent (db : DB) (id : Nat) (b : ReqBody) : Resp × DB :=
  if !allPresent b then
    ({ status := 400, body := .msg "All fields are required" }, db)
  else
    let raw := rawFields b
    if db.records.any (fun r => r.email == normEmail raw.email && !(r.id == id)) then
      ({ status := 400, body := .msg "Student with this email already exists" }, db)
    else
      match updateById db id raw with
      | .ok none => ({ status := 404, body := .msg "Student not found" }, db)
      | .ok (some (s, db')) => ({ status := 200, body := .student s }, db')
      | .error .duplicateKey =>
          ({ status := 400, body := .msg "Student with this email already exists" }, db)
      | .error (.invalid m) =>
          ({ status := 400, body := .msgErr "Error updating student" m }, db)

/-- Handler of `DELETE /api/students/:id` (`findByIdAndDelete`). -/
def deleteStudent (db : DB) (id : Nat) : Resp × DB :=
  match db.records.find? (fun r => r.id == id) with
  | none => ({ status := 404, body := .msg "Student not found" }, db)
  | some _ =>
      ({ status := 200, body := .msg "Student deleted successfully" },
       { db with records := db.records.filter (fun r => !(r.id == id)) })

/-- Handler of `GET /api/health`. -/
def healthCheck : Resp :=
  { status := 200, body := .msg "Server is running successfully" }

/-! ### Reachable store states -/

/-- One mutating API request. -/
inductive Op where
  | create (b : ReqBody) : Op
  | update (id : Nat) (b : ReqBody) : Op
  | delete (id : Nat) : Op

/-- The store state after an operation (responses discarded). -/
def applyOp (db : DB) : Op → DB
  | .create b => (createStudent db b).2
  | .update id b => (updateStudent db id b).2
  | .delete id => (deleteStudent db id).2

/-- Store states reachable from the empty store through the service's
mutating endpoints. -/
inductive Reachable : DB → Prop where
  | empty : Reachable DB.empty
  | step (op : Op) {db : DB} : Reachable db → Reachable (applyOp db op)

/-! ### Facts about normalization -/

theorem toNat_lowerChar_of_upper {c : Char} (h : 65 ≤ c.toNat ∧ c.toNat ≤ 90) :
    (lowerChar c).toNat = c.toNat + 32 := by
  have hv : (c.toNat + 32).isValidChar := by left; omega
  simp [lowerChar, if_pos h, Char.ofNat, hv]
  rfl

theorem lowerChar_lowerChar (c : Char) : lowerChar (lowerChar c) = lowerChar c := by
  by_cases h : 65 ≤ c.toNat ∧ c.toNat ≤ 90
  · have ht := toNat_lowerChar_of_upper h
    unfold lowerChar
    rw [if_pos h]
    rw [show lowerChar c = Char.ofNat (c.toNat + 32) from by rw [lowerChar, if_pos h]] at ht
    rw [if_neg (by omega)]
  · simp [lowerChar, if_neg h]

theorem isWs_lowerChar (c : Char) : isWs (lowerChar c) = isWs c := by
  by_cases h : 65 ≤ c.toNat ∧ c.toNat ≤ 90
  · have ht := toNat_lowerChar_of_upper h
    simp only [isWs, ht]
    rw [Bool.eq_iff_iff]
    simp only [Bool.or_eq_true, decide_eq_true_eq]
    omega
  · unfold lowerChar
    rw [if_neg h]

theorem trimList_prefix_drop (l : List Char) :
    trimList l <+: List.dropWhile isWs l :=
  List.rdropWhile_prefix isWs (List.dropWhile isWs l)

theorem trimList_last_not (l : List Char) (h : trimList l ≠ []) :
    ¬ isWs ((trimList l).getLast h) :=
  List.rdropWhile_last_not isWs (List.dropWhile isWs l) h

theorem dropWhile_map_lower (l : List Char) :
    List.dropWhile isWs (l.map lowerChar) = (List.dropWhile isWs l).map lowerChar := by
  induction l with
  | nil => rfl
  | cons h t ih =>
      simp only [List.map_cons, List.dropWhile_cons, isWs_lowerChar]
      by_cases hw : isWs h
      · simp [hw, ih]
      · simp [hw]

theorem trimList_map_lower_trimList (l : List Char) :
    trimList ((trimList l).map lowerChar) = (trimList l).map lowerChar := by
  have h1 : List.dropWhile isWs ((trimList l).map lowerChar) = (trimList l).map lowerChar := by
    rw [List.dropWhile_eq_self_iff]
    intro hl hp
    have hl' : 0 < (trimList l).length := by simpa using hl
    have hget : ((trimList l).map lowerChar).get ⟨0, hl⟩
        = lowerChar ((trimList l).get ⟨0, hl'⟩) := by
      simp
    rw [hget, isWs_lowerChar] at hp
    have hpre := trimList_prefix_drop l
    have hlen : 0 < (List.dropWhile isWs l).length :=
      lt_of_lt_of_le hl' hpre.length_le
    have hgeteq : (trimList l).get ⟨0, hl'⟩ = (List.dropWhile isWs l).get ⟨0, hlen⟩ := by
      simpa using hpre.getElem (by simpa using hl')
    rw [hgeteq] at hp
    exact List.dropWhile_get_zero_not isWs l hlen hp
  show List.rdropWhile isWs (List.dropWhile isWs ((trimList l).map lowerChar)) = _
  rw [h1, List.rdropWhile_eq_self_iff]
  intro hne hp
  have hne' : trimList l ≠ [] := by simpa using hne
  have hgl : ((trimList l).map lowerChar).getLast hne
      = lowerChar ((trimList l).getLast hne') := by
    simp [List.getLast_map]
  rw [hgl, isWs_lowerChar] at hp
  exact trimList_last_not l hne' hp

theorem map_lower_map_lower (l : List Char) :
    (l.map lowerChar).map lowerChar = l.map lowerChar := by
  rw [List.map_map]
  exact List.map_congr_left (fun c _ => lowerChar_lowerChar c)

/-- Normalization is idempotent: normalizing an already stored (hence
normalized) email changes nothing. -/
theorem normEmail_normEmail (s : String) : normEmail (normEmail s) = normEmail s := by
  show String.mk ((trimList ((trimList s.data).map lowerChar)).map lowerChar)
      = String.mk ((trimList s.data).map lowerChar)
  rw [trimList_map_lower_trimList, map_lower_map_lower]

/-! ### Write-path characterizations -/

/-- The document inserted by a successful save. -/
def mkStudent (db : DB) (f : Fields) : Student :=
  { id := db.nextId, name := f.name, address := f.address, city := f.city,
    state := f.state, email := f.email, phone := f.phone,
    createdAt := db.clock, updatedAt := db.clock }

theorem saveStudent_ok_inv {db : DB} {raw : Fields} {s : Student} {db' : DB}
    (h : saveStudent db raw = .ok (s, db')) :
    validateDoc (applySetters raw) = none ∧
    (∀ r ∈ db.records, r.email ≠ (applySetters raw).email) ∧
    s = mkStudent db (applySetters raw) ∧
    db' = { records := db.records ++ [s], nextId := db.nextId + 1,
            clock := db.clock + 1 } := by
  unfold saveStudent at h
  simp only [] at h
  split at h
  · exact absurd h (by simp)
  · rename_i hval
    split at h
    · exact absurd h (by simp)
    · rename_i hdup
      simp only [Except.ok.injEq, Prod.mk.injEq] at h
      obtain ⟨hs, hdb⟩ := h
      refine ⟨hval, ?_, ?_, ?_⟩
      · intro r hr he
        apply hdup
        rw [List.any_eq_true]
        exact ⟨r, hr, by simp [he]⟩
      · rw [← hs]; rfl
      · rw [← hdb, hs]

/-- The document produced by a successful `findByIdAndUpdate`. -/
def updStudent (db : DB) (r : Student) (f : Fields) : Student :=
  { id := r.id, name := f.name, address := f.address, city := f.city,
    state := f.state, email := f.email, phone := f.phone,
    createdAt := r.createdAt, updatedAt := db.clock }

theorem updateById_ok_inv {db : DB} {id : Nat} {raw : Fields} {s : Student} {db' : DB}
    (h : updateById db id raw = .ok (some (s, db'))) :
    validateDoc (applySetters raw) = none ∧
    (∃ r, db.records.find? (fun x => x.id == id) = some r ∧
      s = updStudent db r (applySetters raw)) ∧
    (∀ x ∈ db.records, x.id ≠ id → x.email ≠ (applySetters raw).email) ∧
    db' = { records := db.records.map (fun x => if x.id == id then s else x),
            nextId := db.nextId, clock := db.clock + 1 } := by
  unfold updateById at h
  simp only [] at h
  split at h
  · exact absurd h (by simp)
  · rename_i hval
    split at h
    · exact absurd h (by simp)
    · rename_i r hfind
      split at h
      · exact absurd h (by simp)
      · rename_i hdup
        simp only [Except.ok.injEq, Option.some.injEq, Prod.mk.injEq] at h
        obtain ⟨hs, hdb⟩ := h
        refine ⟨hval, ⟨r, hfind, by rw [← hs]; rfl⟩, ?_, by rw [← hdb, hs]⟩
        intro x hx hxid he
        apply hdup
        rw [List.any_eq_true]
        refine ⟨x, hx, ?_⟩
        simp [he, hxid]

theorem createStudent_state {db db' : DB} {b : ReqBody} {resp : Resp}
    (h : createStudent db b = (resp, db')) :
    db' = db ∨ ∃ s, saveStudent db (rawFields b) = .ok (s, db') := by
  unfold createStudent at h
  simp only [] at h
  split at h
  · cases h; exact .inl rfl
  · split at h
    · cases h; exact .inl rfl
    · split at h
      · rename_i s db2 heq
        cases h
        exact .inr ⟨s, heq⟩
      · cases h; exact .inl rfl
      · cases h; exact .inl rfl

theorem updateStudent_state {db db' : DB} {id : Nat} {b : ReqBody} {resp : Resp}
    (h : updateStudent db id b = (resp, db')) :
    db' = db ∨ ∃ s, updateById db id (rawFields b) = .ok (some (s, db')) := by
  unfold updateStudent at h
  simp only [] at h
  split at h
  · cases h; exact .inl rfl
  · split at h
    · cases h; exact .inl rfl
    · split at h
      · cases h; exact .inl rfl
      · rename_i s db2 heq
        cases h
        exact .inr ⟨s, heq⟩
      · cases h; exact .inl rfl
      · cases h; exact .inl rfl

theorem deleteStudent_state {db db' : DB} {id : Nat} {resp : Resp}
    (h : deleteStudent db id = (resp, db')) :
    db' = db ∨
    db' = { db with records := db.records.filter (fun r => !(r.id == id)) } := by
  unfold deleteStudent at h
  split at h
  · cases h; exact .inl rfl
  · cases h; exact .inr rfl

/-! ### The store invariant -/

/-- Invariant maintained by the service on the record set: stored emails
are pairwise distinct and already in normal form, and record ids are
pairwise distinct and below the fresh-id counter. -/
def Inv (db : DB) : Prop :=
  db.records.Pairwise (fun a b => a.email ≠ b.email) ∧
  (∀ r ∈ db.records, normEmail r.email = r.email) ∧
  db.records.Pairwise (fun a b => a.id ≠ b.id) ∧
  (∀ r ∈ db.records, r.id < db.nextId)

theorem inv_empty : Inv DB.empty := by
  refine ⟨?_, ?_, ?_, ?_⟩ <;> simp [DB.empty]

theorem inv_create {db db' : DB} {b : ReqBody} {resp : Resp}
    (hInv : Inv db) (h : createStudent db b = (resp, db')) : Inv db' := by
  rcases createStudent_state h with rfl | ⟨s, hok⟩
  · exact hInv
  obtain ⟨hval, hfresh, hs, hdb⟩ := saveStudent_ok_inv hok
  obtain ⟨h1, h2, h3, h4⟩ := hInv
  have hsid : s.id = db.nextId := by rw [hs]; rfl
  have hsem : s.email = normEmail (rawFields b).email := by rw [hs]; rfl
  subst hdb
  refine ⟨?_, ?_, ?_, ?_⟩
  · rw [List.pairwise_append]
    refine ⟨h1, List.pairwise_singleton _ _, ?_⟩
    intro a ha b hb
    rw [List.mem_singleton] at hb
    subst hb
    have := hfresh a ha
    rw [hs]
    exact this
  · intro r hr
    rcases List.mem_append.mp hr with hr | hr
    · exact h2 r hr
    · rw [List.mem_singleton] at hr
      subst hr
      rw [hsem]
      exact normEmail_normEmail _
  · rw [List.pairwise_append]
    refine ⟨h3, List.pairwise_singleton _ _, ?_⟩
    intro a ha b hb
    rw [List.mem_singleton] at hb
    subst hb
    rw [hsid]
    exact Nat.ne_of_lt (h4 a ha)
  · intro r hr
    rcases List.mem_append.mp hr with hr | hr
    · exact Nat.lt_succ_of_lt (h4 r hr)
    · rw [List.mem_singleton] at hr
      subst hr
      rw [hsid]
      exact Nat.lt_succ_self _

theorem inv_update {db db' : DB} {id : Nat} {b : ReqBody} {resp : Resp}
    (hInv : Inv db) (h : updateStudent db id b = (resp, db')) : Inv db' := by
  rcases updateStudent_state h with rfl | ⟨s, hok⟩
  · exact hInv
  obtain ⟨hval, ⟨r, hfind, hs⟩, hother, hdb⟩ := updateById_ok_inv hok
  obtain ⟨h1, h2, h3, h4⟩ := hInv
  have hrid : r.id = id := by
    have := List.find?_some hfind
    simpa using this
  have hrmem : r ∈ db.records := List.mem_of_find?_eq_some hfind
  have hsem : s.email = normEmail (rawFields b).email := by rw [hs]; rfl
  have hsid : s.id = id := by rw [hs, updStudent, ← hrid]
  have hgid : ∀ x : Student, (if x.id == id then s else x).id = x.id := by
    intro x
    by_cases hx : x.id = id
    · simp [hx, hsid]
    · simp [hx]
  subst hdb
  refine ⟨?_, ?_, ?_, ?_⟩
  · rw [List.pairwise_map]
    refine (h1.and h3).imp_of_mem ?_
    intro a c ha hc hac
    obtain ⟨hem, hid⟩ := hac
    by_cases haid : a.id = id <;> by_cases hcid : c.id = id
    · exact absurd (haid.trans hcid.symm) hid
    · simp only [haid, beq_self_eq_true, if_pos, hcid, if_neg]
      rw [if_neg (by simpa using hcid)]
      rw [hsem]
      exact fun hcon => (hother c hc hcid) hcon.symm
    · rw [if_neg (by simpa using haid)]
      rw [if_pos (by simpa using hcid)]
      rw [hsem]
      exact hother a ha haid
    · rw [if_neg (by simpa using haid), if_neg (by simpa using hcid)]
      exact hem
  · intro x hx
    rcases List.mem_map.mp hx with ⟨y, hy, hxy⟩
    by_cases hyid : y.id = id
    · rw [← hxy, if_pos (by simpa using hyid), hsem]
      exact normEmail_normEmail _
    · rw [← hxy, if_neg (by simpa using hyid)]
      exact h2 y hy
  · rw [List.pairwise_map]
    refine h3.imp_of_mem ?_
    intro a c _ _ hac
    rw [hgid a, hgid c]
    exact hac
  · intro x hx
    rcases List.mem_map.mp hx with ⟨y, hy, hxy⟩
    rw [← hxy, hgid y]
    exact h4 y hy

theorem inv_delete {db db' : DB} {id : Nat} {resp : Resp}
    (hInv : Inv db) (h : deleteStudent db id = (resp, db')) : Inv db' := by
  rcases deleteStudent_state h with rfl | rfl
  · exact hInv
  obtain ⟨h1, h2, h3, h4⟩ := hInv
  refine ⟨h1.sublist (List.filter_sublist _), ?_, h3.sublist (List.filter_sublist _), ?_⟩
  · intro r hr
    exact h2 r (List.mem_of_mem_filter hr)
  · intro r hr
    exact h4 r (List.mem_of_mem_filter hr)

/-- Every reachable store state satisfies the invariant. -/
theorem reachable_inv {db : DB} (h : Reachable db) : Inv db := by
  induction h with
  | empty => exact inv_empty
  | step op hdb ih =>
      cases op with
      | create b => exact inv_create ih rfl
      | update id b => exact inv_update ih rfl
      | delete id => exact inv_delete ih rfl

/-! ### Auxiliary facts for the claim theorems -/

theorem find?_eq_some_of_unique {α : Type} {p : α → Bool} {l : List α} {r : α}
    (hr : r ∈ l) (hp : p r = true) (hu : ∀ x ∈ l, p x = true → x = r) :
    l.find? p = some r := by
  induction l with
  | nil => cases hr
  | cons h t ih =>
      rw [List.find?_cons]
      by_cases hh : p h = true
      · rw [hh]
        rw [hu h (List.mem_cons_self h t) hh]
      · rw [Bool.not_eq_true] at hh
        rw [hh]
        rcases List.mem_cons.mp hr with rfl | hrt
        · rw [hp] at hh
          cases hh
        · exact ih hrt (fun x hx => hu x (List.mem_cons_of_mem h hx))

theorem validateDoc_none_inv {f : Fields} (h : validateDoc f = none) :
    f.name ≠ "" ∧ f.address ≠ "" ∧ f.city ≠ "" ∧ f.state ≠ "" ∧
    f.email ≠ "" ∧ validEmail f.email = true ∧ f.phone ≠ "" := by
  unfold validateDoc at h
  split_ifs at h with h1 h2 h3 h4 h5 h6 h7
  refine ⟨h1, h2, h3, h4, h5, ?_, h7⟩
  by_contra hv
  rw [Bool.not_eq_true] at hv
  exact h6 (by rw [hv]; rfl)

theorem validateDoc_none_of {f : Fields}
    (h1 : f.name ≠ "") (h2 : f.address ≠ "") (h3 : f.city ≠ "") (h4 : f.state ≠ "")
    (h5 : f.email ≠ "") (h6 : validEmail f.email = true) (h7 : f.phone ≠ "") :
    validateDoc f = none := by
  unfold validateDoc
  rw [if_neg h1, if_neg h2, if_neg h3, if_neg h4, if_neg h5, if_neg (by simp [h6]),
    if_neg h7]

theorem validEmail_empty : validEmail "" = false := by decide

theorem jsTrim_empty : jsTrim "" = "" := rfl

/-- A create that answers 201 really went through `save()`: the new
document is appended, the id counter and clock advance, and the new
document's fields are the setter-normalized input with system-generated
id and timestamps. -/
theorem create_201_inv {db db' : DB} {b : ReqBody} {s : Student}
    (h : createStudent db b = ({ status := 201, body := .student s }, db')) :
    validateDoc (applySetters (rawFields b)) = none ∧
    (∀ r ∈ db.records, r.email ≠ (applySetters (rawFields b)).email) ∧
    s = mkStudent db (applySetters (rawFields b)) ∧
    db' = { records := db.records ++ [s], nextId := db.nextId + 1,
            clock := db.clock + 1 } := by
  unfold createStudent at h
  simp only [] at h
  split at h
  · exact absurd h (by simp)
  · split at h
    · exact absurd h (by simp)
    · split at h
      · rename_i s0 db0 heq
        simp only [Prod.mk.injEq, Resp.mk.injEq, Body.student.injEq] at h
        obtain ⟨⟨-, hs0⟩, hdb0⟩ := h
        rw [hs0, hdb0] at heq
        exact saveStudent_ok_inv heq
      · exact absurd h (by simp)
      · exact absurd h (by simp)

/-- An update that answers 200 really went through `findByIdAndUpdate`. -/
theorem update_200_inv {db db' : DB} {id : Nat} {b : ReqBody} {s : Student}
    (h : updateStudent db id b = ({ status := 200, body := .student s }, db')) :
    validateDoc (applySetters (rawFields b)) = none ∧
    (∃ r, db.records.find? (fun x => x.id == id) = some r ∧
      s = updStudent db r (applySetters (rawFields b))) ∧
    (∀ x ∈ db.records, x.id ≠ id → x.email ≠ (applySetters (rawFields b)).email) ∧
    db' = { records := db.records.map (fun x => if x.id == id then s else x),
            nextId := db.nextId, clock := db.clock + 1 } := by
  unfold updateStudent at h
  simp only [] at h
  split at h
  · exact absurd h (by simp)
  · split at h
    · exact absurd h (by simp)
    · split at h
      · exact absurd h (by simp)
      · rename_i s0 db0 heq
        simp only [Prod.mk.injEq, Resp.mk.injEq, Body.student.injEq] at h
        obtain ⟨⟨-, hs0⟩, hdb0⟩ := h
        rw [hs0, hdb0] at heq
        exact updateById_ok_inv heq
      · exact absurd h (by simp)
      · exact absurd h (by simp)

/-! ### Claim theorems -/

/-- C1: At every reachable state of the record set, no two student
records share the same normalized (trimmed, lowercased) email; every
operation (create, update, delete) preserves this invariant. -/
theorem no_duplicate_normalized_email {db : DB} (h : Reachable db) :
    db.records.Pairwise (fun a b => normEmail a.email ≠ normEmail b.email) := by
  obtain ⟨h1, h2, -, -⟩ := reachable_inv h
  refine h1.imp_of_mem ?_
  intro a b ha hb hne
  rw [h2 a ha, h2 b hb]
  exact hne

def wBody1 : ReqBody :=
  ⟨some "Ann", some "1 Main St", some "Springfield", some "IL", some "ann@mail.com", some "555"⟩

def wBody2 : ReqBody :=
  ⟨some "Bob", some "2 Oak Ave", some "Austin", some "TX", some " Bob@Mail.org", some "556"⟩

/-- Witness for C1 at a concrete reachable state: the store obtained by
two creates satisfies the normalized-email uniqueness property. -/
theorem no_duplicate_normalized_email_witness :
    ((applyOp (applyOp DB.empty (Op.create wBody1)) (Op.create wBody2)).records).Pairwise
      (fun a b => normEmail a.email ≠ normEmail b.email) :=
  no_duplicate_normalized_email (Reachable.step _ (Reachable.step _ Reachable.empty))

/-- C3: A create whose (complete) body carries an email already owned by
an existing record — equality taken up to trimming and lowercasing —
answers 400 with the duplicate-email message and leaves the record set
(and the whole store state) unchanged. Stored emails are in normal form
on every reachable state (see C1's invariant), which the `hnorm`
hypothesis captures. -/
theorem duplicate_email_create_rejected {db : DB} {b : ReqBody} {e : String}
    (hall : allPresent b = true) (he : b.email = some e)
    (hnorm : ∀ r ∈ db.records, normEmail r.email = r.email)
    (hdup : ∃ r ∈ db.records, normEmail r.email = normEmail e) :
    createStudent db b =
      ({ status := 400, body := .msg "Student with this email already exists" }, db) := by
  obtain ⟨r, hr, hre⟩ := hdup
  have hraw : (rawFields b).email = e := by simp [rawFields, he]
  have hany : db.records.any (fun x => x.email == normEmail (rawFields b).email) = true := by
    rw [List.any_eq_true]
    refine ⟨r, hr, ?_⟩
    have hrem : r.email = normEmail e := (hnorm r hr).symm.trans hre
    rw [hraw, hrem]
    simp
  unfold createStudent
  simp [hall, hany]

def wStoredAnn : Student :=
  { id := 0, name := "Ann", address := "1 Main St", city := "Springfield",
    state := "IL", email := "ann@mail.com", phone := "555",
    createdAt := 0, updatedAt := 0 }

def wDbAnn : DB :=
  { records := [wStoredAnn], nextId := 1, clock := 1 }

/-- Witness for C3: against a store holding `ann@mail.com`, a create
whose email differs only in case and surrounding whitespace is rejected
with the duplicate message and the store is unchanged. -/
theorem duplicate_email_create_rejected_witness :
    createStudent wDbAnn
      ⟨some "Eve", some "9 Elm", some "Reno", some "NV", some " ANN@Mail.com ", some "557"⟩ =
      ({ status := 400, body := .msg "Student with this email already exists" }, wDbAnn) :=
  duplicate_email_create_rejected (by decide) rfl (by decide)
    ⟨wStoredAnn, by decide, by decide⟩

/-- C4: A create or update whose body is missing any of the six fields
(or carries it as the empty string) answers 400 with
`All fields are required`, whatever the field and whatever the store
holds — in particular also when the email would moreover be a duplicate,
since this guard runs before the email-uniqueness check. -/
theorem missing_field_all_fields_required {db : DB} {id : Nat} {b : ReqBody}
    (h : b.name = none ∨ b.name = some "" ∨ b.address = none ∨ b.address = some "" ∨
      b.city = none ∨ b.city = some "" ∨ b.state = none ∨ b.state = some "" ∨
      b.email = none ∨ b.email = some "" ∨ b.phone = none ∨ b.phone = some "") :
    createStudent db b = ({ status := 400, body := .msg "All fields are required" }, db) ∧
    updateStudent db id b = ({ status := 400, body := .msg "All fields are required" }, db) := by
  have hap : allPresent b = false := by
    rcases h with h|h|h|h|h|h|h|h|h|h|h|h <;>
      simp [allPresent, truthy, h]
  constructor
  · unfold createStudent
    rw [hap]
    rfl
  · unfold updateStudent
    rw [hap]
    rfl

/-- Witness for C4: a body lacking `name` (and duplicating a stored
email) gets the required-fields message on both create and update. -/
theorem missing_field_all_fields_required_witness :
    createStudent wDbAnn
        ⟨none, some "1 St", some "C", some "S", some "ann@mail.com", some "5"⟩ =
      ({ status := 400, body := .msg "All fields are required" }, wDbAnn) ∧
    updateStudent wDbAnn 0
        ⟨none, some "1 St", some "C", some "S", some "ann@mail.com", some "5"⟩ =
      ({ status := 400, body := .msg "All fields are required" }, wDbAnn) :=
  missing_field_all_fields_required (.inl rfl)

/-- C6: For an id owned by no record, get, update (with a complete,
valid, non-conflicting body) and delete all answer 404 with
`Student not found`, leaving the store unchanged. -/
theorem unknown_id_not_found {db : DB} {id : Nat} {b : ReqBody}
    (hid : ∀ r ∈ db.records, r.id ≠ id)
    (hall : allPresent b = true)
    (hvalid : validateDoc (applySetters (rawFields b)) = none)
    (hfresh : ∀ r ∈ db.records, r.email ≠ normEmail (rawFields b).email) :
    getStudent db id = { status := 404, body := .msg "Student not found" } ∧
    updateStudent db id b = ({ status := 404, body := .msg "Student not found" }, db) ∧
    deleteStudent db id = ({ status := 404, body := .msg "Student not found" }, db) := by
  have hfind : db.records.find? (fun r => r.id == id) = none := by
    rw [List.find?_eq_none]
    intro x hx
    simpa using hid x hx
  have hany : db.records.any
      (fun r => r.email == normEmail (rawFields b).email && !(r.id == id)) = false := by
    rw [List.any_eq_false]
    intro x hx
    simp [hfresh x hx]
  have hupd : updateById db id (rawFields b) = .ok none := by
    unfold updateById
    simp only [hvalid, hfind]
  refine ⟨?_, ?_, ?_⟩
  · unfold getStudent
    rw [hfind]
  · unfold updateStudent
    simp [hall, hany, hupd]
  · unfold deleteStudent
    rw [hfind]

/-- Witness for C6 at id 7, absent from a one-record store. -/
theorem unknown_id_not_found_witness :
    getStudent wDbAnn 7 = { status := 404, body := .msg "Student not found" } ∧
    updateStudent wDbAnn 7 wBody2 =
      ({ status := 404, body := .msg "Student not found" }, wDbAnn) ∧
    deleteStudent wDbAnn 7 =
      ({ status := 404, body := .msg "Student not found" }, wDbAnn) :=
  unknown_id_not_found (by decide) (by decide) (by decide) (by decide)

def blankNameBody : ReqBody :=
  ⟨some " ", some "1 Main St", some "Springfield", some "IL", some "ann@mail.com", some "555"⟩

/-- C2 counterexample: a body whose six fields are all present and
non-empty (name is the one-character string of a blank), whose email is
well-formed and fresh in an empty store, is nevertheless answered 400,
not 201: the handler's guard admits whitespace-only values but the
schema's trim-then-required rule rejects them at write time. -/
theorem valid_create_201_cex :
    allPresent blankNameBody = true ∧
    validEmail (normEmail "ann@mail.com") = true ∧
    DB.empty.records = [] ∧
    (createStudent DB.empty blankNameBody).1.status = 400 ∧
    (createStudent DB.empty blankNameBody).1.status ≠ 201 := by
  decide

/-- C2 (amended): when each of the six fields is present and non-blank
(non-empty after trimming), the email is well-formed after normalization
and fresh with respect to the stored records, create answers 201 with a
record whose stored email is the trimmed lowercased input email, whose
id is the fresh counter and whose timestamps are the store clock, and
appends exactly that record. -/
theorem valid_create_201 {db : DB} {b : ReqBody} {n a c st e p : String}
    (hn : b.name = some n) (ha : b.address = some a) (hc : b.city = some c)
    (hst : b.state = some st) (he : b.email = some e) (hp : b.phone = some p)
    (hbn : jsTrim n ≠ "") (hba : jsTrim a ≠ "") (hbc : jsTrim c ≠ "")
    (hbs : jsTrim st ≠ "") (hbp : jsTrim p ≠ "")
    (hem : validEmail (normEmail e) = true)
    (hfresh : ∀ r ∈ db.records, r.email ≠ normEmail e) :
    ∃ s db',
      createStudent db b = ({ status := 201, body := .student s }, db') ∧
      s.email = normEmail e ∧ s.id = db.nextId ∧ s.createdAt = db.clock ∧
      s.updatedAt = db.clock ∧
      db' = { records := db.records ++ [s], nextId := db.nextId + 1,
              clock := db.clock + 1 } := by
  have hraw : rawFields b = ⟨n, a, c, st, e, p⟩ := by
    simp [rawFields, hn, ha, hc, hst, he, hp]
  have hnn : n ≠ "" := fun hx => hbn (by rw [hx]; rfl)
  have hna : a ≠ "" := fun hx => hba (by rw [hx]; rfl)
  have hnc : c ≠ "" := fun hx => hbc (by rw [hx]; rfl)
  have hns : st ≠ "" := fun hx => hbs (by rw [hx]; rfl)
  have hnp : p ≠ "" := fun hx => hbp (by rw [hx]; rfl)
  have hne0 : e ≠ "" := fun hx => by
    rw [hx] at hem
    rw [show normEmail "" = "" from rfl, validEmail_empty] at hem
    cases hem
  have hall : allPresent b = true := by
    simp [allPresent, truthy, hn, ha, hc, hst, he, hp, hnn, hna, hnc, hns, hnp, hne0]
  have hnemail : normEmail e ≠ "" := fun hx => by
    rw [hx, validEmail_empty] at hem
    cases hem
  have hval : validateDoc (applySetters (rawFields b)) = none := by
    rw [hraw]
    exact validateDoc_none_of hbn hba hbc hbs hnemail hem hbp
  have hanypre : db.records.any
      (fun x => x.email == normEmail (rawFields b).email) = false := by
    rw [List.any_eq_false]
    intro x hx
    rw [hraw]
    simp [hfresh x hx]
  have hanyidx : db.records.any
      (fun x => x.email == (applySetters (rawFields b)).email) = false := by
    rw [List.any_eq_false]
    intro x hx
    rw [hraw]
    simp [applySetters, hfresh x hx]
  have hsave : saveStudent db (rawFields b) =
      .ok (mkStudent db (applySetters (rawFields b)),
        { records := db.records ++ [mkStudent db (applySetters (rawFields b))],
          nextId := db.nextId + 1, clock := db.clock + 1 }) := by
    unfold saveStudent
    simp only [hval, hanyidx]
    rfl
  refine ⟨mkStudent db (applySetters (rawFields b)),
    { records := db.records ++ [mkStudent db (applySetters (rawFields b))],
      nextId := db.nextId + 1, clock := db.clock + 1 }, ?_, ?_, rfl, rfl, rfl, rfl⟩
  · unfold createStudent
    simp only [hall, Bool.not_true, Bool.false_eq_true, if_false, hanypre, hsave]
  · rw [hraw]
    rfl

/-- Witness for C2 (amended), with an email normalized on the way in. -/
theorem valid_create_201_witness :
    ∃ s db',
      createStudent DB.empty
          ⟨some "Ann", some "1 Main St", some "Springfield", some "IL",
            some " Ann@Mail.com ", some "555"⟩ =
        ({ status := 201, body := .student s }, db') ∧
      s.email = normEmail " Ann@Mail.com " ∧ s.id = DB.empty.nextId ∧
      s.createdAt = DB.empty.clock ∧ s.updatedAt = DB.empty.clock ∧
      db' = { records := DB.empty.records ++ [s], nextId := DB.empty.nextId + 1,
              clock := DB.empty.clock + 1 } :=
  valid_create_201 rfl rfl rfl rfl rfl rfl (by decide) (by decide) (by decide)
    (by decide) (by decide) (by decide) (by decide)

def badEmailBody : ReqBody :=
  ⟨some "Ann", some "1 Main St", some "Springfield", some "IL", some "not-an-email", some "555"⟩

/-- C5 counterexample: a create that reaches the write step and fails
the email format validator is answered 400 with `Error creating student`
plus the validator detail — not with the duplicate-email message the
claim states. -/
theorem write_time_format_violation_cex :
    (createStudent DB.empty badEmailBody).1 =
      { status := 400,
        body := .msgErr "Error creating student"
          "Student validation failed: email: Please enter a valid email address" } ∧
    Body.msgErr "Error creating student"
        "Student validation failed: email: Please enter a valid email address" ≠
      Body.msg "Student with this email already exists" := by
  decide

/-- C5 (amended): a create that passes the required-fields guard and the
duplicate pre-check but whose email fails the schema's format validator
at write time answers 400 with `Error creating student` and the
validator's message, leaving the store unchanged; only a duplicate-key
violation produces the "already exists" message. -/
theorem write_time_format_violation {db : DB} {b : ReqBody} {n a c st e p : String}
    (hn : b.name = some n) (ha : b.address = some a) (hc : b.city = some c)
    (hst : b.state = some st) (he : b.email = some e) (hp : b.phone = some p)
    (hbn : jsTrim n ≠ "") (hba : jsTrim a ≠ "") (hbc : jsTrim c ≠ "")
    (hbs : jsTrim st ≠ "") (hbp : jsTrim p ≠ "")
    (hnemail : normEmail e ≠ "")
    (hbad : validEmail (normEmail e) = false)
    (hfresh : ∀ r ∈ db.records, r.email ≠ normEmail e) :
    createStudent db b =
      ({ status := 400,
         body := .msgErr "Error creating student"
           "Student validation failed: email: Please enter a valid email address" }, db) := by
  have hraw : rawFields b = ⟨n, a, c, st, e, p⟩ := by
    simp [rawFields, hn, ha, hc, hst, he, hp]
  have hnn : n ≠ "" := fun hx => hbn (by rw [hx]; rfl)
  have hna : a ≠ "" := fun hx => hba (by rw [hx]; rfl)
  have hnc : c ≠ "" := fun hx => hbc (by rw [hx]; rfl)
  have hns : st ≠ "" := fun hx => hbs (by rw [hx]; rfl)
  have hnp : p ≠ "" := fun hx => hbp (by rw [hx]; rfl)
  have hne0 : e ≠ "" := fun hx => hnemail (by rw [hx]; rfl)
  have hall : allPresent b = true := by
    simp [allPresent, truthy, hn, ha, hc, hst, he, hp, hnn, hna, hnc, hns, hnp, hne0]
  have hval : validateDoc (applySetters (rawFields b)) =
      some "Student validation failed: email: Please enter a valid email address" := by
    rw [hraw]
    unfold validateDoc
    simp only [applySetters]
    rw [if_neg hbn, if_neg hba, if_neg hbc, if_neg hbs, if_neg hnemail,
      if_pos (by rw [hbad]; rfl)]
  have hanypre : db.records.any
      (fun x => x.email == normEmail (rawFields b).email) = false := by
    rw [List.any_eq_false]
    intro x hx
    rw [hraw]
    simp [hfresh x hx]
  have hsave : saveStudent db (rawFields b) = .error (.invalid
      "Student validation failed: email: Please enter a valid email address") := by
    unfold saveStudent
    simp only [hval]
  unfold createStudent
  simp only [hall, Bool.not_true, Bool.false_eq_true, if_false, hanypre, hsave]

/-- Witness for C5 (amended) at a concrete malformed email. -/
theorem write_time_format_violation_witness :
    createStudent wDbAnn
        ⟨some "Eve", some "9 Elm", some "Reno", some "NV", some "not-an-email", some "557"⟩ =
      ({ status := 400,
         body := .msgErr "Error creating student"
           "Student validation failed: email: Please enter a valid email address" }, wDbAnn) :=
  write_time_format_violation rfl rfl rfl rfl rfl rfl (by decide) (by decide)
    (by decide) (by decide) (by decide) (by decide) (by decide) (by decide)

/-- C10: a body whose fields are all present and non-empty but where
some field is blank after trimming passes the handlers' required-fields
guard, fails the schema's trim-then-required rule at write time, and is
answered 400 with `Error creating student` (resp. `Error updating
student`) plus an error detail — not with `All fields are required`. -/
theorem blank_field_write_rejected {db : DB} {id : Nat} {b : ReqBody}
    (hall : allPresent b = true)
    (hblank : jsTrim (rawFields b).name = "" ∨ jsTrim (rawFields b).address = "" ∨
      jsTrim (rawFields b).city = "" ∨ jsTrim (rawFields b).state = "" ∨
      normEmail (rawFields b).email = "" ∨ jsTrim (rawFields b).phone = "")
    (hfresh : ∀ r ∈ db.records, r.email ≠ normEmail (rawFields b).email) :
    ∃ m, createStudent db b =
        ({ status := 400, body := .msgErr "Error creating student" m }, db) ∧
      updateStudent db id b =
        ({ status := 400, body := .msgErr "Error updating student" m }, db) ∧
      Body.msgErr "Error creating student" m ≠ Body.msg "All fields are required" := by
  have hsome : ∃ m, validateDoc (applySetters (rawFields b)) = some m := by
    rcases hv : validateDoc (applySetters (rawFields b)) with - | m
    · obtain ⟨g1, g2, g3, g4, g5, -, g7⟩ := validateDoc_none_inv hv
      rcases hblank with hb | hb | hb | hb | hb | hb
      · exact absurd hb g1
      · exact absurd hb g2
      · exact absurd hb g3
      · exact absurd hb g4
      · exact absurd hb g5
      · exact absurd hb g7
    · exact ⟨m, rfl⟩
  obtain ⟨m, hm⟩ := hsome
  have hanypre : db.records.any
      (fun x => x.email == normEmail (rawFields b).email) = false := by
    rw [List.any_eq_false]
    intro x hx
    simp [hfresh x hx]
  have hanyupd : db.records.any
      (fun x => x.email == normEmail (rawFields b).email && !(x.id == id)) = false := by
    rw [List.any_eq_false]
    intro x hx
    simp [hfresh x hx]
  have hsave : saveStudent db (rawFields b) = .error (.invalid m) := by
    unfold saveStudent
    simp only [hm]
  have hupd : updateById db id (rawFields b) = .error (.invalid m) := by
    unfold updateById
    simp only [hm]
  refine ⟨m, ?_, ?_, by simp⟩
  · unfold createStudent
    simp only [hall, Bool.not_true, Bool.false_eq_true, if_false, hanypre, hsave]
  · unfold updateStudent
    simp only [hall, Bool.not_true, Bool.false_eq_true, if_false, hanyupd, hupd]

/-- Witness for C10 with a whitespace-only name. -/
theorem blank_field_write_rejected_witness :
    ∃ m, createStudent wDbAnn
        ⟨some " ", some "9 Elm", some "Reno", some "NV", some "eve@mail.com", some "557"⟩ =
        ({ status := 400, body := .msgErr "Error creating student" m }, wDbAnn) ∧
      updateStudent wDbAnn 0
        ⟨some " ", some "9 Elm", some "Reno", some "NV", some "eve@mail.com", some "557"⟩ =
        ({ status := 400, body := .msgErr "Error updating student" m }, wDbAnn) ∧
      Body.msgErr "Error creating student" m ≠ Body.msg "All fields are required" :=
  blank_field_write_rejected (by decide) (.inl (by decide)) (by decide)

/-- C7: the update email-uniqueness pre-check excludes the record being
updated: an update keeping the target record's own (possibly unchanged)
email succeeds with 200, while an update whose email is owned by a
different existing record answers 400 with the duplicate message and
leaves the store — in particular the original record — unchanged. -/
theorem update_self_email_excluded {db : DB} {id : Nat} {b : ReqBody} {e : String}
    {r : Student} (he : b.email = some e) (hall : allPresent b = true) :
    (r ∈ db.records → r.id = id →
      (∀ x ∈ db.records, x.id = id → x = r) →
      normEmail e = r.email →
      (∀ x ∈ db.records, x ≠ r → x.email ≠ r.email) →
      validateDoc (applySetters (rawFields b)) = none →
      ∃ s db2, updateStudent db id b = ({ status := 200, body := .student s }, db2)) ∧
    ((∃ x ∈ db.records, x.id ≠ id ∧ x.email = normEmail e) →
      updateStudent db id b =
        ({ status := 400, body := .msg "Student with this email already exists" }, db)) := by
  have hrawe : (rawFields b).email = e := by simp [rawFields, he]
  constructor
  · intro hrmem hrid huniq hown hothers hval
    have hany : db.records.any
        (fun x => x.email == normEmail (rawFields b).email && !(x.id == id)) = false := by
      rw [List.any_eq_false]
      intro x hx
      by_cases hxid : x.id = id
      · simp [hxid]
      · have hxr : x ≠ r := fun hxr => hxid (hxr ▸ hrid)
        have hxe : x.email ≠ normEmail e := by
          rw [hown]
          exact hothers x hx hxr
        simp [hrawe, hxe]
    have hfind : db.records.find? (fun x => x.id == id) = some r :=
      find?_eq_some_of_unique hrmem (by simp [hrid])
        (fun x hx hp => huniq x hx (by simpa using hp))
    have hanyidx : db.records.any
        (fun x => !(x.id == id) && x.email == (applySetters (rawFields b)).email) = false := by
      rw [List.any_eq_false]
      intro x hx
      by_cases hxid : x.id = id
      · simp [hxid]
      · have hxr : x ≠ r := fun hxr => hxid (hxr ▸ hrid)
        have hxe : x.email ≠ normEmail e := by
          rw [hown]
          exact hothers x hx hxr
        simp [applySetters, hrawe, hxe]
    have hupd : updateById db id (rawFields b) =
        .ok (some (updStudent db r (applySetters (rawFields b)),
          { records := db.records.map (fun x => if x.id == id
              then updStudent db r (applySetters (rawFields b)) else x),
            nextId := db.nextId, clock := db.clock + 1 })) := by
      unfold updateById
      simp only [hval, hfind, hanyidx]
      rfl
    refine ⟨updStudent db r (applySetters (rawFields b)),
      { records := db.records.map (fun x => if x.id == id
          then updStudent db r (applySetters (rawFields b)) else x),
        nextId := db.nextId, clock := db.clock + 1 }, ?_⟩
    unfold updateStudent
    simp only [hall, Bool.not_true, Bool.false_eq_true, if_false, hany, hupd]
  · intro hex
    obtain ⟨x, hx, hxid, hxe⟩ := hex
    have hany : db.records.any
        (fun y => y.email == normEmail (rawFields b).email && !(y.id == id)) = true := by
      rw [List.any_eq_true]
      exact ⟨x, hx, by simp [hrawe, hxe, hxid]⟩
    unfold updateStudent
    simp only [hall, Bool.not_true, Bool.false_eq_true, if_false, hany]
    rfl

/-- Witness for C7: keeping one's own email (modulo case) succeeds;
taking another record's email is rejected with the store unchanged. -/
theorem update_self_email_excluded_witness :
    (∃ s db2, updateStudent wDbAnn 0
        ⟨some "Ann", some "1 Main St", some "Springfield", some "IL",
          some "ANN@mail.com", some "555"⟩ =
        ({ status := 200, body := .student s }, db2)) ∧
    updateStudent
        { records := [wStoredAnn,
            { id := 1, name := "Bob", address := "2 Oak Ave", city := "Austin",
              state := "TX", email := "bob@mail.org", phone := "556",
              createdAt := 1, updatedAt := 1 }], nextId := 2, clock := 2 } 1
        ⟨some "Bob", some "2 Oak Ave", some "Austin", some "TX",
          some "ann@mail.com", some "556"⟩ =
      ({ status := 400, body := .msg "Student with this email already exists" },
        { records := [wStoredAnn,
            { id := 1, name := "Bob", address := "2 Oak Ave", city := "Austin",
              state := "TX", email := "bob@mail.org", phone := "556",
              createdAt := 1, updatedAt := 1 }], nextId := 2, clock := 2 }) :=
  ⟨(update_self_email_excluded (r := wStoredAnn) rfl (by decide)).1
      (by decide) (by decide) (by decide) (by decide) (by decide) (by decide),
    (update_self_email_excluded (r := wStoredAnn) rfl (by decide)).2
      ⟨wStoredAnn, by decide, by decide, by decide⟩⟩

/-- C8: an update that answers 200 replaced exactly the six user fields
with their setter-normalized input values and refreshed `updatedAt` to
the store clock, while the record's id and `createdAt` are those of the
stored target record; no other record changes shape. -/
theorem update_replaces_fields {db db2 : DB} {id : Nat} {b : ReqBody} {s : Student}
    (h : updateStudent db id b = ({ status := 200, body := .student s }, db2)) :
    ∃ r ∈ db.records, r.id = id ∧
      s.id = r.id ∧ s.createdAt = r.createdAt ∧
      s.name = jsTrim (rawFields b).name ∧ s.address = jsTrim (rawFields b).address ∧
      s.city = jsTrim (rawFields b).city ∧ s.state = jsTrim (rawFields b).state ∧
      s.email = normEmail (rawFields b).email ∧ s.phone = jsTrim (rawFields b).phone ∧
      s.updatedAt = db.clock ∧
      db2 = { records := db.records.map (fun x => if x.id == id then s else x),
              nextId := db.nextId, clock := db.clock + 1 } := by
  obtain ⟨-, ⟨r, hfind, hs⟩, -, hdb⟩ := update_200_inv h
  have hrmem : r ∈ db.records := List.mem_of_find?_eq_some hfind
  have hrid : r.id = id := by simpa using List.find?_some hfind
  subst hs
  subst hdb
  exact ⟨r, hrmem, hrid, rfl, rfl, rfl, rfl, rfl, rfl, rfl, rfl, rfl, rfl⟩

def wUpdBody : ReqBody :=
  ⟨some "Ann B", some "3 Pine", some "Reno", some "NV", some "annb@mail.com", some "558"⟩

def wUpdStudent : Student :=
  { id := 0, name := "Ann B", address := "3 Pine", city := "Reno", state := "NV",
    email := "annb@mail.com", phone := "558", createdAt := 0, updatedAt := 1 }

/-- Witness for C8 on a concrete successful update. -/
theorem update_replaces_fields_witness :
    ∃ r ∈ wDbAnn.records, r.id = 0 ∧
      wUpdStudent.id = r.id ∧ wUpdStudent.createdAt = r.createdAt ∧
      wUpdStudent.name = jsTrim (rawFields wUpdBody).name ∧
      wUpdStudent.address = jsTrim (rawFields wUpdBody).address ∧
      wUpdStudent.city = jsTrim (rawFields wUpdBody).city ∧
      wUpdStudent.state = jsTrim (rawFields wUpdBody).state ∧
      wUpdStudent.email = normEmail (rawFields wUpdBody).email ∧
      wUpdStudent.phone = jsTrim (rawFields wUpdBody).phone ∧
      wUpdStudent.updatedAt = wDbAnn.clock ∧
      ({ records := [wUpdStudent], nextId := 1, clock := 2 } : DB) =
        { records := wDbAnn.records.map (fun x => if x.id == 0 then wUpdStudent else x),
          nextId := wDbAnn.nextId, clock := wDbAnn.clock + 1 } :=
  update_replaces_fields (by decide)

/-- C9: the list endpoint answers 200 with the records in descending
creation-time order — after creating A then B then C from the empty
store, list returns [C, B, A] — and with the empty array on the empty
store. -/
theorem list_sorted_desc {a b c : ReqBody} {sa sb sc : Student} {db1 db2 db3 : DB}
    (h1 : createStudent DB.empty a = ({ status := 201, body := .student sa }, db1))
    (h2 : createStudent db1 b = ({ status := 201, body := .student sb }, db2))
    (h3 : createStudent db2 c = ({ status := 201, body := .student sc }, db3)) :
    listStudents DB.empty = { status := 200, body := .students [] } ∧
    listStudents db3 = { status := 200, body := .students [sc, sb, sa] } := by
  obtain ⟨-, -, hsa, hdb1⟩ := create_201_inv h1
  obtain ⟨-, -, hsb, hdb2⟩ := create_201_inv h2
  obtain ⟨-, -, hsc, hdb3⟩ := create_201_inv h3
  have hca : sa.createdAt = 0 := by rw [hsa]; rfl
  have hcb : sb.createdAt = 1 := by rw [hsb, hdb1]; rfl
  have hcc : sc.createdAt = 2 := by rw [hsc, hdb2, hdb1]; rfl
  have hr3 : db3.records = [sa, sb, sc] := by rw [hdb3, hdb2, hdb1]; rfl
  have hc1 : ¬ (sc.createdAt ≤ sb.createdAt) := by rw [hcb, hcc]; omega
  have hc2 : ¬ (sc.createdAt ≤ sa.createdAt) := by rw [hca, hcc]; omega
  have hc3 : ¬ (sb.createdAt ≤ sa.createdAt) := by rw [hca, hcb]; omega
  refine ⟨rfl, ?_⟩
  unfold listStudents
  rw [hr3]
  simp [sortByCreatedDesc, insertDesc, hc1, hc2, hc3]

def wCBody3 : ReqBody :=
  ⟨some "Cal", some "4 Fir", some "Boise", some "ID", some "cal@mail.net", some "559"⟩

def wCS1 : Student :=
  { id := 0, name := "Ann", address := "1 Main St", city := "Springfield",
    state := "IL", email := "ann@mail.com", phone := "555",
    createdAt := 0, updatedAt := 0 }

def wCS2 : Student :=
  { id := 1, name := "Bob", address := "2 Oak Ave", city := "Austin",
    state := "TX", email := "bob@mail.org", phone := "556",
    createdAt := 1, updatedAt := 1 }

def wCS3 : Student :=
  { id := 2, name := "Cal", address := "4 Fir", city := "Boise",
    state := "ID", email := "cal@mail.net", phone := "559",
    createdAt := 2, updatedAt := 2 }

def wDb1 : DB := { records := [wCS1], nextId := 1, clock := 1 }

def wDb2 : DB := { records := [wCS1, wCS2], nextId := 2, clock := 2 }

def wDb3 : DB := { records := [wCS1, wCS2, wCS3], nextId := 3, clock := 3 }

/-- Witness for C9 on three concrete creates. -/
theorem list_sorted_desc_witness :
    listStudents DB.empty = { status := 200, body := .students [] } ∧
    listStudents wDb3 = { status := 200, body := .students [wCS3, wCS2, wCS1] } :=
  @list_sorted_desc wBody1 wBody2 wCBody3 wCS1 wCS2 wCS3 wDb1 wDb2 wDb3
    (by decide) (by decide) (by decide)

end StudentSrv
